import Mathlib

/-!
# Verification of the calendar aggregation logic of JobAppTrackerMobile

This file gives a shallow embedding, in Lean 4, of the calendar month-grid,
date-match filtering, agenda merging and month-navigation logic implemented in
`src/screens/DashboardScreen.tsx` of the JobAppTrackerMobile repository, and
proves the specified properties about it.

The embedding models:

* the host `Date` library operations actually used by the screen
  (`new Date(y, m, d)` with month/day rollover normalisation, `getDate`,
  `getDay`, `getMonth`, `getFullYear`, `setMonth`, and ISO date(-time) string
  parsing for `new Date(string).getTime()`), over `Int` with proleptic
  Gregorian rules, treating timezone-naive strings at UTC offset 0 (the code
  deliberately performs no timezone conversion);
* the data model (`CalendarEvent`, `Task`) with optional date fields, since the
  code guards every date-field access with optional chaining;
* the screen's functions `getDaysInMonth`, `getFirstDayOfMonth`,
  `getEventsForDate`, `getEventsForSelectedDate`, `renderCalendarDay`
  (its data content: day number, current-month flag, matched events/tasks),
  `renderCalendar`, the agenda merge of `renderSelectedDayEvents`,
  `navigateMonth`, `handleDayPress`, and the response-shape handling of
  `loadCalendarData`.

All definitions are computable and total; partiality of the JavaScript source
(absent fields, undefined collections, unparseable strings) is modelled with
`Option`.
-/

namespace JobCal

/-! ## Model of the host `Date` library (proleptic Gregorian, UTC) -/

/-- Leap-year predicate, as the Gregorian rules used by JavaScript `Date`. -/
def isLeapYear (y : Int) : Bool :=
  (y % 4 == 0 && y % 100 != 0) || (y % 400 == 0)

/-- Number of days of month `m` (0-based, assumed already normalised into
`0..11`) of year `y`. -/
def daysInMonth0 (y m : Int) : Int :=
  if m = 1 then (if isLeapYear y then 29 else 28)
  else if m = 3 ∨ m = 5 ∨ m = 8 ∨ m = 10 then 30
  else 31

/-- Day-of-month rollover: starting from year `y`, 0-based month `m` in
`0..11` and a day number `d` that may lie outside `1..daysInMonth`, walk
month-by-month until the day is in range (as `MakeDay` millisecond
normalisation of JavaScript `Date` does).  A month step `(y, m) ↦ (y, m ± 1)`
is normalised on the spot as `(y + (m ± 1) / 12, (m ± 1) % 12)` — `Int`
division in Lean is Euclidean, which coincides with the floor division
JavaScript uses for the positive divisor 12.  Structural fuel makes the walk
total; callers supply ample fuel. -/
def rollDay : Nat → Int → Int → Int → Int × Int × Int
  | 0, y, m, d => (y, m, d)
  | fuel + 1, y, m, d =>
    if d < 1 then
      rollDay fuel (y + (m - 1) / 12) ((m - 1) % 12)
        (d + daysInMonth0 (y + (m - 1) / 12) ((m - 1) % 12))
    else if daysInMonth0 y m < d then
      rollDay fuel (y + (m + 1) / 12) ((m + 1) % 12) (d - daysInMonth0 y m)
    else (y, m, d)

/-- A calendar date as the JavaScript `Date` values used by the screen:
`year` = `getFullYear()`, `month` = `getMonth()` (0-based), `day` =
`getDate()` (1-based). -/
structure Date3 where
  year : Int
  month : Int
  day : Int
deriving DecidableEq, Repr

/-- Model of `new Date(y, m, d)`: normalise the month by rollover
(`(y, -1)` becomes December of `y - 1`, `(y, 12)` January of `y + 1`),
then normalise the day. -/
def mkJsDate (y m d : Int) : Date3 :=
  let r := rollDay (d.natAbs + 24) (y + m / 12) (m % 12) d
  ⟨r.1, r.2.1, r.2.2⟩

/-- Days since the Unix epoch 1970-01-01 of the civil date `(y, m, d)`
(`m` 1-based), valid for the proleptic Gregorian calendar. -/
def daysFromCivil (y m d : Int) : Int :=
  let yy := if m ≤ 2 then y - 1 else y
  let mp := if m ≤ 2 then m + 9 else m - 3
  365 * yy + yy / 4 - yy / 100 + yy / 400 + (153 * mp + 2) / 5 + d - 1 - 719468

/-- Model of `Date.prototype.getDay`: weekday index with 0 = Sunday
(1970-01-01 was a Thursday, index 4). -/
def jsGetDay (dt : Date3) : Int :=
  (daysFromCivil dt.year (dt.month + 1) dt.day + 4) % 7

/-- Milliseconds per day. -/
def msPerDay : Int := 86400000

/-! ### ISO date / date-time string parsing (`new Date(string).getTime()`)

The screen parses `start_datetime` / `due_date` strings only to obtain sort
keys.  We model the ISO forms the data uses: `YYYY-MM-DD`, optionally followed
by `THH:MM`, `THH:MM:SS`, `THH:MM:SS.sss`, optionally suffixed `Z`.  A
date-only string gets the time component defaulted to start of day.  The
code applies no timezone conversion, so local time is modelled as UTC.
Unparseable strings yield `none` (modelling `NaN`). -/

/-- Numeric value of a decimal digit character. -/
def digitVal (c : Char) : Option Nat :=
  if c.isDigit then some (c.toNat - 48) else none

/-- Read exactly two decimal digits. -/
def readTwo : List Char → Option (Nat × List Char)
  | c1 :: c2 :: rest => do
    let d1 ← digitVal c1
    let d2 ← digitVal c2
    pure (10 * d1 + d2, rest)
  | _ => none

/-- Read exactly three decimal digits. -/
def readThree : List Char → Option (Nat × List Char)
  | c1 :: c2 :: c3 :: rest => do
    let d1 ← digitVal c1
    let d2 ← digitVal c2
    let d3 ← digitVal c3
    pure (100 * d1 + 10 * d2 + d3, rest)
  | _ => none

/-- Read exactly four decimal digits. -/
def readFour : List Char → Option (Nat × List Char)
  | c1 :: c2 :: c3 :: c4 :: rest => do
    let d1 ← digitVal c1
    let d2 ← digitVal c2
    let d3 ← digitVal c3
    let d4 ← digitVal c4
    pure (1000 * d1 + 100 * d2 + 10 * d3 + d4, rest)
  | _ => none

/-- Read an optional `:SS` / `:SS.sss` seconds part. -/
def readSeconds : List Char → Option (Nat × Nat × List Char)
  | ':' :: rest => do
    let (sec, r) ← readTwo rest
    match r with
    | '.' :: r2 => do
      let (ms, r3) ← readThree r2
      pure (sec, ms, r3)
    | _ => pure (sec, 0, r)
  | rest => some (0, 0, rest)

/-- Read an `HH:MM[:SS[.sss]][Z]` clock suffix and return milliseconds within
the day. -/
def readClock (cs : List Char) : Option Int := do
  let (h, r1) ← readTwo cs
  match r1 with
  | ':' :: r2 => do
    let (mi, r3) ← readTwo r2
    let (sec, ms, r4) ← readSeconds r3
    if h < 24 ∧ mi < 60 ∧ sec < 60 ∧ (r4 = [] ∨ r4 = ['Z']) then
      pure ((((h * 60 + mi) * 60 + sec) * 1000 + ms : Nat) : Int)
    else none
  | _ => none

/-- Model of `new Date(s).getTime()` for the ISO strings the screen handles:
milliseconds since the epoch, `none` for an unparseable string (`NaN`). -/
def jsGetTime (s : String) : Option Int := do
  let (y, r1) ← readFour s.toList
  match r1 with
  | '-' :: r2 => do
    let (mo, r3) ← readTwo r2
    match r3 with
    | '-' :: r4 => do
      let (d, r5) ← readTwo r4
      if 1 ≤ mo ∧ mo ≤ 12 ∧ 1 ≤ d ∧ (d : Int) ≤ daysInMonth0 (y : Int) ((mo : Int) - 1) then
        match r5 with
        | [] => pure (daysFromCivil y mo d * msPerDay)
        | 'T' :: r6 => do
          let t ← readClock r6
          pure (daysFromCivil y mo d * msPerDay + t)
        | _ => none
      else none
    | _ => none
  | _ => none

/-! ## Data model (`CalendarEvent`, `Task` interfaces of the screen)

`start_datetime` is declared required in the TypeScript interface, but every
access in the screen is optionally chained (`event?.start_datetime?.`), so the
runtime value may be absent; it is modelled as `Option String`.  `due_date`
is optional in the interface itself. -/

structure CalendarEvent where
  id : Int
  title : String
  description : Option String
  start_datetime : Option String
  end_datetime : Option String
  event_type : String
  color : Option String
deriving DecidableEq, Repr

structure Task where
  id : Int
  title : String
  description : Option String
  due_date : Option String
  status : String
  priority : String
deriving DecidableEq, Repr

/-! ## Date-match filtering (`getEventsForDate`, `getEventsForSelectedDate`) -/

/-- Model of `String(n).padStart(2, '0')`. -/
def padStart2 (s : String) : String :=
  if s.length < 2 then "0" ++ s else s

/-- The comparison key
`` `${year}-${String(month).padStart(2, '0')}-${String(day).padStart(2, '0')}` ``
(month 1-based). -/
def dateKey (y m d : Int) : String :=
  toString y ++ "-" ++ padStart2 (toString m) ++ "-" ++ padStart2 (toString d)

/-- Model of JavaScript `String.prototype.startsWith` as a character-level
test: `key`'s character list is an initial segment of `s`'s.  (The Lean core
`String.startsWith` has the same meaning but does not reduce inside the
kernel, so the embedding works on the character lists directly.) -/
def strStartsWith (s key : String) : Bool :=
  key.toList.isPrefixOf s.toList

/-- Model of `x?.field?.startsWith(key)` for an optional date field: an absent
field never matches. -/
def optStartsWith (os : Option String) (key : String) : Bool :=
  match os with
  | some s => strStartsWith s key
  | none => false

/-- Model of the screen's `getEventsForDate(date)`: the component state
`currentYear` / `currentMonth` (0-based) is passed explicitly; `events` /
`tasks` are optional collections, defaulted to `[]` by the `(events || [])`
guards in the source. -/
def getEventsForDate (currentYear currentMonth : Int)
    (events : Option (List CalendarEvent)) (tasks : Option (List Task))
    (date : Int) : List CalendarEvent × List Task :=
  let dateString := dateKey currentYear (currentMonth + 1) date
  ((events.getD []).filter fun e => optStartsWith e.start_datetime dateString,
   (tasks.getD []).filter fun t => optStartsWith t.due_date dateString)

/-- Model of `getEventsForSelectedDate()`: key built from the selected date's
own year / month / day; `([], [])` when no day is selected. -/
def getEventsForSelectedDate (selectedDate : Option Date3)
    (events : Option (List CalendarEvent)) (tasks : Option (List Task)) :
    List CalendarEvent × List Task :=
  match selectedDate with
  | none => ([], [])
  | some sd =>
    let dateString := dateKey sd.year (sd.month + 1) sd.day
    ((events.getD []).filter fun e => optStartsWith e.start_datetime dateString,
     (tasks.getD []).filter fun t => optStartsWith t.due_date dateString)

/-! ## Month grid (`getDaysInMonth`, `getFirstDayOfMonth`, `renderCalendar`) -/

/-- Model of `getDaysInMonth(year, month)` = `new Date(year, month + 1, 0).getDate()`
(`month` 0-based, rollover normalised). -/
def getDaysInMonth (year month : Int) : Int :=
  (mkJsDate year (month + 1) 0).day

/-- Model of `getFirstDayOfMonth(year, month)` = `new Date(year, month, 1).getDay()`:
weekday index (0 = Sunday) of day 1 of the (normalised) month. -/
def getFirstDayOfMonth (year month : Int) : Int :=
  jsGetDay (mkJsDate year month 1)

/-- The claim-relevant data of one rendered grid cell: the displayed day
number, the current-month flag, and the matched event / task lists (the
source's `renderCalendarDay` additionally renders styling, which carries no
further data). -/
structure DayCell where
  day : Int
  isCurrentMonth : Bool
  events : List CalendarEvent
  tasks : List Task
deriving DecidableEq, Repr

/-- Model of `renderCalendarDay(day, isCurrentMonth)`: the cell's lists come
from `getEventsForDate(day)`, which keys on the component's displayed
`currentYear` / `currentMonth` regardless of `isCurrentMonth`. -/
def renderCalendarDay (currentYear currentMonth : Int)
    (events : Option (List CalendarEvent)) (tasks : Option (List Task))
    (day : Int) (isCurrentMonth : Bool) : DayCell :=
  let r := getEventsForDate currentYear currentMonth events tasks day
  ⟨day, isCurrentMonth, r.1, r.2⟩

/-- Model of `renderCalendar()`: leading cells of the previous month (the
first loop pushes `daysInPrevMonth - i` for `i = firstDayOfMonth - 1` down to
`0`, re-indexed here as `j = firstDayOfMonth - 1 - i`), one cell per day of
the current month, then leading days of the next month filling up to 42 cells
(`remainingDays = 42 - calendarDays.length`; a non-positive remainder adds no
cells, exactly as the source's `for` loop). -/
def renderCalendar (currentYear currentMonth : Int)
    (events : Option (List CalendarEvent)) (tasks : Option (List Task)) :
    List DayCell :=
  let daysInMonth := getDaysInMonth currentYear currentMonth
  let firstDayOfMonth := getFirstDayOfMonth currentYear currentMonth
  let daysInPrevMonth := getDaysInMonth currentYear (currentMonth - 1)
  let leading := (List.range firstDayOfMonth.toNat).map fun (j : Nat) =>
    renderCalendarDay currentYear currentMonth events tasks
      (daysInPrevMonth - firstDayOfMonth + 1 + (j : Int)) false
  let body := (List.range daysInMonth.toNat).map fun (j : Nat) =>
    renderCalendarDay currentYear currentMonth events tasks ((j : Int) + 1) true
  let trailing := (List.range (42 - (leading.length + body.length))).map fun (j : Nat) =>
    renderCalendarDay currentYear currentMonth events tasks ((j : Int) + 1) false
  leading ++ body ++ trailing

/-! ## Selected-day agenda (`renderSelectedDayEvents`) -/

/-- The tagged union built by `renderSelectedDayEvents`:
`{ ...event, type: 'event' }` / `{ ...task, type: 'task' }`. -/
inductive AgendaItem where
  | ev (e : CalendarEvent)
  | tk (t : Task)
deriving DecidableEq, Repr

/-- The sort key of an agenda item:
`new Date(a.start_datetime).getTime()` for events (absent field ⇒ `NaN`,
modelled `none`), `new Date(a.due_date || '').getTime()` for tasks. -/
def itemTime : AgendaItem → Option Int
  | .ev e =>
    match e.start_datetime with
    | some s => jsGetTime s
    | none => none
  | .tk t => jsGetTime (t.due_date.getD "")

/-- The sort comparator `(a, b) => aTime - bTime` as the "should not swap"
relation of a stable sort: `a` may stay before `b` iff the comparator is not
positive.  A `NaN` key (`none`) makes the comparator `NaN`, which the sort
treats as 0 (keep the current order), hence `true` here. -/
def agendaLe (a b : AgendaItem) : Bool :=
  match itemTime a, itemTime b with
  | some x, some y => x ≤ y
  | _, _ => true

/-- The concatenation `[...dayEvents.map(event), ...dayTasks.map(task)]`
before sorting. -/
def taggedItems (selectedDate : Option Date3)
    (events : Option (List CalendarEvent)) (tasks : Option (List Task)) :
    List AgendaItem :=
  let r := getEventsForSelectedDate selectedDate events tasks
  r.1.map AgendaItem.ev ++ r.2.map AgendaItem.tk

/-- `agendaLe` as a decidable relation (`a` may keep its place before `b`). -/
def agendaLeP (a b : AgendaItem) : Prop :=
  agendaLe a b = true

instance : DecidableRel agendaLeP :=
  fun a b => inferInstanceAs (Decidable (agendaLe a b = true))

/-- Model of the `allItems` computation of `renderSelectedDayEvents`: merge
the tagged lists and stably sort them by the time comparator.  JavaScript
`Array.prototype.sort` is required to be stable, and a stable sort's output
is determined by the comparator alone, so it is modelled by a stable
insertion sort. -/
def selectedDayAgenda (selectedDate : Option Date3)
    (events : Option (List CalendarEvent)) (tasks : Option (List Task)) :
    List AgendaItem :=
  List.insertionSort agendaLeP (taggedItems selectedDate events tasks)

/-! ## Navigation state (`currentDate` / `selectedDate`, `navigateMonth`,
`handleDayPress`) -/

/-- The navigation state of the screen: the displayed month (`currentDate`)
and the selected day (`selectedDate`, initially `null`). -/
structure CalState where
  currentDate : Date3
  selectedDate : Option Date3
deriving DecidableEq, Repr

/-- `useState(new Date(2025, 7, 1))` / `useState<Date | null>(null)`:
August 2025 displayed, nothing selected. -/
def initialState : CalState :=
  ⟨⟨2025, 7, 1⟩, none⟩

/-- Model of `Date.prototype.setMonth(m)`: same year and day-of-month, month
set to `m`, then full rollover normalisation. -/
def jsSetMonth (d : Date3) (m : Int) : Date3 :=
  mkJsDate d.year m d.day

inductive NavDir where
  | prev
  | next
deriving DecidableEq, Repr

/-- Model of `navigateMonth(direction)`: copy the current date and
`setMonth(getMonth() ± 1)`; the selection is not touched. -/
def navigateMonth (s : CalState) (dir : NavDir) : CalState :=
  let d := s.currentDate
  let newMonth := match dir with
    | .prev => d.month - 1
    | .next => d.month + 1
  { s with currentDate := jsSetMonth d newMonth }

/-- Model of `handleDayPress(day, isCurrentMonth)`: early-return when the cell
is not in the displayed month, otherwise select
`new Date(currentYear, currentMonth, day)`. -/
def handleDayPress (s : CalState) (day : Int) (isCurrentMonth : Bool) : CalState :=
  if isCurrentMonth then
    { s with selectedDate := some (mkJsDate s.currentDate.year s.currentDate.month day) }
  else s

/-- The linear month index `year * 12 + month` of a date, used to express
"moves the displayed month by one". -/
def monthIdx (d : Date3) : Int :=
  d.year * 12 + d.month

/-- The states reachable from the initial state through the two navigation
actions. -/
inductive Reachable : CalState → Prop
  | init : Reachable initialState
  | nav {s : CalState} (dir : NavDir) : Reachable s → Reachable (navigateMonth s dir)
  | press {s : CalState} (day : Int) (isCurrentMonth : Bool) :
      Reachable s → Reachable (handleDayPress s day isCurrentMonth)

/-! ## Backend response handling (`loadCalendarData`) -/

/-- One entry of a week array in the nested month-view shape:
`day.events` is `some` when present and an array, `none` otherwise. -/
structure WeekDayObj where
  events : Option (List CalendarEvent)
deriving DecidableEq, Repr

/-- The shapes the month-view response can take, as discriminated by
`loadCalendarData`: an object with an array-valued `weeks` field (whose day
entries may be null), a flat array, an object with an array-valued `events`
field, or anything else. -/
inductive MonthViewResp where
  | weeks (ws : List (List (Option WeekDayObj)))
  | flat (es : List CalendarEvent)
  | eventsField (es : List CalendarEvent)
  | unexpected
deriving DecidableEq, Repr

/-- The filter predicate `day && day.events && Array.isArray(day.events)`. -/
def dayHasEvents (d : Option WeekDayObj) : Bool :=
  match d with
  | some w => w.events.isSome
  | none => false

/-- The event extraction of `loadCalendarData`:
`weeks.flat().filter(...).flatMap(day => day.events)` for the nested shape,
the array itself for a flat array, the `events` field for the third shape,
and `[]` (the initial value of `eventsArray`) otherwise. -/
def extractEvents : MonthViewResp → List CalendarEvent
  | .weeks ws =>
    ((ws.flatten.filter dayHasEvents).map fun d => (d.bind WeekDayObj.events).getD []).flatten
  | .flat es => es
  | .eventsField es => es
  | .unexpected => []

/-- The task extraction `Array.isArray(tasksData) ? tasksData : []`:
`none` models a non-array response. -/
def extractTasks : Option (List Task) → List Task
  | some ts => ts
  | none => []

/-! ## Basic facts about the date model -/

theorem daysInMonth0_lb (y m : Int) : 28 ≤ daysInMonth0 y m := by
  unfold daysInMonth0
  split
  · split <;> norm_num
  · split <;> norm_num

theorem daysInMonth0_ub (y m : Int) : daysInMonth0 y m ≤ 31 := by
  unfold daysInMonth0
  split
  · split <;> norm_num
  · split <;> norm_num

theorem rollDay_eq_self (fuel : Nat) (y m d : Int)
    (h1 : 1 ≤ d) (h2 : d ≤ daysInMonth0 y m) :
    rollDay fuel y m d = (y, m, d) := by
  cases fuel with
  | zero => rfl
  | succ f =>
    unfold rollDay
    rw [if_neg (by omega), if_neg (by omega)]

theorem mkJsDate_of_valid (y m d : Int) (h0 : 0 ≤ m) (h1 : m < 12)
    (hd1 : 1 ≤ d) (hd2 : d ≤ daysInMonth0 y m) :
    mkJsDate y m d = ⟨y, m, d⟩ := by
  have e1 : y + m / 12 = y := by omega
  have e2 : m % 12 = m := by omega
  simp only [mkJsDate, e1, e2, rollDay_eq_self _ y m d hd1 hd2]

theorem mkJsDate_day1 (y m : Int) :
    mkJsDate y m 1 = ⟨y + m / 12, m % 12, 1⟩ := by
  have h2 : (1 : Int) ≤ daysInMonth0 (y + m / 12) (m % 12) := by
    have := daysInMonth0_lb (y + m / 12) (m % 12)
    omega
  simp only [mkJsDate]
  rw [rollDay_eq_self _ _ _ _ (le_refl 1) h2]

/-- A single backward step of the day normalisation from day 0 (the previous
month's last day). -/
theorem rollDay_succ_day0 (fuel : Nat) (y m : Int) :
    rollDay (fuel + 1) y m 0 =
      rollDay fuel (y + (m - 1) / 12) ((m - 1) % 12)
        (0 + daysInMonth0 (y + (m - 1) / 12) ((m - 1) % 12)) := by
  conv_lhs => rw [rollDay]
  rw [if_pos (by norm_num)]

theorem getDaysInMonth_eq (y m : Int) :
    getDaysInMonth y m = daysInMonth0 (y + m / 12) (m % 12) := by
  have hfuel : (0 : Int).natAbs + 24 = 23 + 1 := by norm_num
  have hlb := daysInMonth0_lb (y + m / 12) (m % 12)
  have e1 : y + (m + 1) / 12 + ((m + 1) % 12 - 1) / 12 = y + m / 12 := by omega
  have e2 : ((m + 1) % 12 - 1) % 12 = m % 12 := by omega
  simp only [getDaysInMonth, mkJsDate, hfuel, rollDay_succ_day0, e1, e2, zero_add]
  rw [rollDay_eq_self 23 _ _ _ (by omega) (le_refl _)]

theorem getFirstDayOfMonth_bounds (y m : Int) :
    0 ≤ getFirstDayOfMonth y m ∧ getFirstDayOfMonth y m < 7 := by
  unfold getFirstDayOfMonth
  rw [mkJsDate_day1]
  unfold jsGetDay
  exact ⟨Int.emod_nonneg _ (by norm_num), Int.emod_lt_of_pos _ (by norm_num)⟩

theorem getDaysInMonth_bounds (y m : Int) :
    28 ≤ getDaysInMonth y m ∧ getDaysInMonth y m ≤ 31 := by
  rw [getDaysInMonth_eq]
  exact ⟨daysInMonth0_lb _ _, daysInMonth0_ub _ _⟩

/-- The grid always has exactly `42 = 6 × 7` cells. -/
theorem renderCalendar_length (y m : Int)
    (oe : Option (List CalendarEvent)) (ot : Option (List Task)) :
    (renderCalendar y m oe ot).length = 42 := by
  have hfw := getFirstDayOfMonth_bounds y m
  have hdm := getDaysInMonth_bounds y m
  unfold renderCalendar
  simp only [List.length_append, List.length_map, List.length_range]
  omega

/-! ## Projections of a rendered cell -/

theorem renderCalendarDay_day (y m : Int) (oe : Option (List CalendarEvent))
    (ot : Option (List Task)) (d : Int) (b : Bool) :
    (renderCalendarDay y m oe ot d b).day = d := rfl

theorem renderCalendarDay_isCurrentMonth (y m : Int)
    (oe : Option (List CalendarEvent)) (ot : Option (List Task))
    (d : Int) (b : Bool) :
    (renderCalendarDay y m oe ot d b).isCurrentMonth = b := rfl

theorem renderCalendarDay_events (y m : Int) (oe : Option (List CalendarEvent))
    (ot : Option (List Task)) (d : Int) (b : Bool) :
    (renderCalendarDay y m oe ot d b).events =
      (oe.getD []).filter fun e =>
        optStartsWith e.start_datetime (dateKey y (m + 1) d) := rfl

theorem renderCalendarDay_tasks (y m : Int) (oe : Option (List CalendarEvent))
    (ot : Option (List Task)) (d : Int) (b : Bool) :
    (renderCalendarDay y m oe ot d b).tasks =
      (ot.getD []).filter fun t =>
        optStartsWith t.due_date (dateKey y (m + 1) d) := rfl

/-- The cells flagged "current month" are exactly the body cells: one per day
of the displayed month. -/
theorem renderCalendar_countP (y m : Int) (oe : Option (List CalendarEvent))
    (ot : Option (List Task)) :
    (renderCalendar y m oe ot).countP (fun c => c.isCurrentMonth) =
      (getDaysInMonth y m).toNat := by
  have hfalse : ∀ (l : List Nat), List.countP (fun _ => false) l = 0 := by
    intro l
    simp
  have htrue : ∀ (l : List Nat), List.countP (fun _ => true) l = l.length := by
    intro l
    simp
  simp only [renderCalendar, List.countP_append, List.countP_map,
    Function.comp_def, renderCalendarDay_isCurrentMonth]
  rw [hfalse, hfalse, htrue, List.length_range]
  omega

/-- Leading cells: the first `firstWeekday` cells show the trailing day
numbers of the previous month and are flagged "not current month". -/
theorem renderCalendar_take_leading (y m : Int)
    (oe : Option (List CalendarEvent)) (ot : Option (List Task)) :
    (((renderCalendar y m oe ot).take (getFirstDayOfMonth y m).toNat).map
        fun c => (c.day, c.isCurrentMonth)) =
      ((List.range (getFirstDayOfMonth y m).toNat).map fun (j : Nat) =>
        (getDaysInMonth y (m - 1) - getFirstDayOfMonth y m + 1 + (j : Int),
          false)) := by
  simp only [renderCalendar]
  rw [List.append_assoc, List.take_left']
  · simp only [List.map_map, Function.comp_def, renderCalendarDay_day,
      renderCalendarDay_isCurrentMonth]
  · simp

/-- Body cells: the next `daysInMonth` cells show days `1..daysInMonth` in
order, flagged "current month". -/
theorem renderCalendar_body (y m : Int)
    (oe : Option (List CalendarEvent)) (ot : Option (List Task)) :
    ((((renderCalendar y m oe ot).drop (getFirstDayOfMonth y m).toNat).take
        (getDaysInMonth y m).toNat).map fun c => (c.day, c.isCurrentMonth)) =
      ((List.range (getDaysInMonth y m).toNat).map fun (j : Nat) =>
        ((j : Int) + 1, true)) := by
  simp only [renderCalendar]
  rw [List.append_assoc, List.drop_left']
  · rw [List.take_left']
    · simp only [List.map_map, Function.comp_def, renderCalendarDay_day,
        renderCalendarDay_isCurrentMonth]
    · simp
  · simp

/-- Trailing cells: the remaining cells show days `1, 2, ...` of the next
month, flagged "not current month", filling the grid to 42. -/
theorem renderCalendar_drop_trailing (y m : Int)
    (oe : Option (List CalendarEvent)) (ot : Option (List Task)) :
    (((renderCalendar y m oe ot).drop
        ((getFirstDayOfMonth y m).toNat + (getDaysInMonth y m).toNat)).map
        fun c => (c.day, c.isCurrentMonth)) =
      ((List.range
          (42 - ((getFirstDayOfMonth y m).toNat + (getDaysInMonth y m).toNat))).map
        fun (j : Nat) => ((j : Int) + 1, false)) := by
  simp only [renderCalendar]
  rw [List.append_assoc, ← List.drop_drop, List.drop_left']
  · rw [List.drop_left']
    · simp only [List.map_map, Function.comp_def, renderCalendarDay_day,
        renderCalendarDay_isCurrentMonth, List.length_map, List.length_range]
    · simp
  · simp

/-! ## Sample data used in concrete test-property theorems -/

def julyEvent : CalendarEvent :=
  ⟨1, "July interview", none, some "2025-07-27T10:00:00", none, "interview", none⟩

def augEvent : CalendarEvent :=
  ⟨2, "August screening", none, some "2025-08-02T10:00:00Z", none, "interview", none⟩

def event14 : CalendarEvent :=
  ⟨3, "afternoon event", none, some "2025-08-02T14:00:00", none, "other", none⟩

def event00 : CalendarEvent :=
  ⟨4, "midnight event", none, some "2025-08-02T00:00:00", none, "other", none⟩

def taskDue : Task :=
  ⟨5, "due task", none, some "2025-08-02", "pending", "low"⟩

def noDateEvent : CalendarEvent :=
  ⟨6, "date missing", none, none, none, "other", none⟩

def noDueTask : Task :=
  ⟨7, "due missing", none, none, "pending", "low"⟩

def malformedEvent : CalendarEvent :=
  ⟨8, "malformed date", none, some "not-a-date", none, "other", none⟩

def malformedTask : Task :=
  ⟨9, "malformed due", none, some "soon", "pending", "high"⟩

/-! ## Claims -/

/-- C1: for every year and every month (including out-of-range month indices,
which the date model normalises by rollover) and any input collections, the
Month Grid Builder `renderCalendar` returns a sequence of exactly 42 day
cells — this covers all month lengths 28/29/30/31 and all seven possible
starting weekdays, since `y` and `m` are universally quantified. -/
theorem C1_month_grid_always_42_cells (y m : Int)
    (oe : Option (List CalendarEvent)) (ot : Option (List Task)) :
    (renderCalendar y m oe ot).length = 42 :=
  renderCalendar_length y m oe ot

/-- C5: the grid for `(year, zero-based month)` is: `firstWeekday` leading
cells holding the trailing day numbers of the previous month marked "not
current month"; then one "current month" cell per day `1..daysInMonth` in
order; then the leading day numbers `1, 2, ...` of the next month marked
"not current month" up to 42 cells.  For January (`month = 0`) the previous
month resolves by `month = -1` rollover to December of the previous year.
February 2024 yields exactly 29 current-month cells and February 2023
exactly 28. -/
theorem C5_grid_structure (y m : Int)
    (oe : Option (List CalendarEvent)) (ot : Option (List Task)) :
    ((((renderCalendar y m oe ot).take (getFirstDayOfMonth y m).toNat).map
        fun c => (c.day, c.isCurrentMonth)) =
      ((List.range (getFirstDayOfMonth y m).toNat).map fun (j : Nat) =>
        (getDaysInMonth y (m - 1) - getFirstDayOfMonth y m + 1 + (j : Int),
          false))) ∧
    (((((renderCalendar y m oe ot).drop (getFirstDayOfMonth y m).toNat).take
        (getDaysInMonth y m).toNat).map fun c => (c.day, c.isCurrentMonth)) =
      ((List.range (getDaysInMonth y m).toNat).map fun (j : Nat) =>
        ((j : Int) + 1, true))) ∧
    ((((renderCalendar y m oe ot).drop
        ((getFirstDayOfMonth y m).toNat + (getDaysInMonth y m).toNat)).map
        fun c => (c.day, c.isCurrentMonth)) =
      ((List.range
          (42 - ((getFirstDayOfMonth y m).toNat + (getDaysInMonth y m).toNat))).map
        fun (j : Nat) => ((j : Int) + 1, false))) ∧
    (getDaysInMonth y (0 - 1) = daysInMonth0 (y - 1) 11) ∧
    ((renderCalendar 2024 1 oe ot).countP (fun c => c.isCurrentMonth) = 29) ∧
    ((renderCalendar 2023 1 oe ot).countP (fun c => c.isCurrentMonth) = 28) := by
  refine ⟨renderCalendar_take_leading y m oe ot, renderCalendar_body y m oe ot,
    renderCalendar_drop_trailing y m oe ot, ?_, ?_, ?_⟩
  · have h1 : y + (0 - 1 : Int) / 12 = y - 1 := by omega
    have h2 : ((0 - 1 : Int) % 12) = 11 := by omega
    rw [getDaysInMonth_eq, h1, h2]
  · rw [renderCalendar_countP]
    decide
  · rw [renderCalendar_countP]
    decide

/-- C2 counterexample: in the displayed August 2025 grid (`currentMonth = 7`
0-based), the first cell is the trailing July cell — day number 27, flagged
"not current month", so its own calendar date is 2025-07-27.  `julyEvent`'s
start timestamp `"2025-07-27T10:00:00"` prefix-matches that cell's own date
key, so under the claim the cell's event list would be `[julyEvent]`; the
code instead keys the cell on the displayed month (`"2025-08-27"`) and the
list is empty. -/
theorem C2_cex_adjacent_cell_ignores_own_month :
    (renderCalendar 2025 7 (some [julyEvent]) (some [])).head? =
      some ⟨27, false, [], []⟩ ∧
    optStartsWith julyEvent.start_datetime (dateKey 2025 7 27) = true ∧
    ([julyEvent].filter fun e =>
      optStartsWith e.start_datetime (dateKey 2025 7 27)) = [julyEvent] ∧
    ([] : List CalendarEvent) ≠ [julyEvent] := by
  refine ⟨by decide, by decide, by decide, by decide⟩

/-- C2 (amended): every cell of the grid — current-month and adjacent-month
cells alike — carries as event/task lists exactly the input elements whose
date field string-prefix-matches the `YYYY-MM-DD` key built from the
**displayed** year/month and the cell's day number (so an adjacent-month
cell's lists are those of the displayed month's same-numbered day, not of the
cell's own calendar date). -/
theorem C2_amended_cell_lists_keyed_on_displayed_month (y m : Int)
    (oe : Option (List CalendarEvent)) (ot : Option (List Task)) :
    ∀ c ∈ renderCalendar y m oe ot,
      c.events = ((oe.getD []).filter fun e =>
        optStartsWith e.start_datetime (dateKey y (m + 1) c.day)) ∧
      c.tasks = ((ot.getD []).filter fun t =>
        optStartsWith t.due_date (dateKey y (m + 1) c.day)) := by
  intro c hc
  simp only [renderCalendar, List.mem_append, List.mem_map, List.mem_range] at hc
  rcases hc with (⟨j, hj, rfl⟩ | ⟨j, hj, rfl⟩) | ⟨j, hj, rfl⟩ <;> exact ⟨rfl, rfl⟩

theorem C2_amended_witness :
    (⟨27, false, [], []⟩ : DayCell) ∈
      renderCalendar 2025 7 (some [julyEvent]) (some []) ∧
    ([] : List CalendarEvent) =
      ((some [julyEvent] : Option (List CalendarEvent)).getD []).filter
        (fun e => optStartsWith e.start_datetime (dateKey 2025 (7 + 1) 27)) := by
  have hmem : (⟨27, false, [], []⟩ : DayCell) ∈
      renderCalendar 2025 7 (some [julyEvent]) (some []) := by decide
  exact ⟨hmem, (C2_amended_cell_lists_keyed_on_displayed_month 2025 7
    (some [julyEvent]) (some []) ⟨27, false, [], []⟩ hmem).1⟩

/-- C3: the Date-Match Filter builds the zero-padded `YYYY-MM-DD` comparison
key and returns exactly those events whose start-timestamp string starts with
the key and those tasks whose due-date string starts with the key.
Concretely, the event with start `"2025-08-02T10:00:00Z"` matches the target
date (2025, 8, 2) — the selected date with 0-based month 7 — and does not
match (2025, 8, 3). -/
theorem C3_date_match_filter :
    dateKey 2025 8 2 = "2025-08-02" ∧
    dateKey 2025 8 3 = "2025-08-03" ∧
    (∀ (y m d : Int) (oe : Option (List CalendarEvent))
        (ot : Option (List Task)) (e : CalendarEvent),
      e ∈ (getEventsForDate y m oe ot d).1 ↔
        e ∈ oe.getD [] ∧
          optStartsWith e.start_datetime (dateKey y (m + 1) d) = true) ∧
    (∀ (y m d : Int) (oe : Option (List CalendarEvent))
        (ot : Option (List Task)) (t : Task),
      t ∈ (getEventsForDate y m oe ot d).2 ↔
        t ∈ ot.getD [] ∧
          optStartsWith t.due_date (dateKey y (m + 1) d) = true) ∧
    augEvent ∈
      (getEventsForSelectedDate (some ⟨2025, 7, 2⟩) (some [augEvent]) (some [])).1 ∧
    augEvent ∉
      (getEventsForSelectedDate (some ⟨2025, 7, 3⟩) (some [augEvent]) (some [])).1 := by
  refine ⟨by decide, by decide, ?_, ?_, by decide, by decide⟩
  · intro y m d oe ot e
    exact List.mem_filter
  · intro y m d oe ot t
    exact List.mem_filter

/-- C6: an event or task whose date field is missing (`none`) never matches
any target date; one whose date string does not start with the target's date
key (in particular any malformed date string) never matches that target; and
empty or undefined (`none`) collections make the Date-Match Filter and the
agenda merge return empty results.  All the functions involved are total, so
no evaluation can raise. -/
theorem C6_missing_malformed_and_empty_inputs :
    (∀ (y m d : Int) (oe : Option (List CalendarEvent))
        (ot : Option (List Task)) (e : CalendarEvent), e.start_datetime = none →
      e ∉ (getEventsForDate y m oe ot d).1) ∧
    (∀ (y m d : Int) (oe : Option (List CalendarEvent))
        (ot : Option (List Task)) (t : Task), t.due_date = none →
      t ∉ (getEventsForDate y m oe ot d).2) ∧
    (∀ (y m d : Int) (oe : Option (List CalendarEvent))
        (ot : Option (List Task)) (e : CalendarEvent) (s : String),
      e.start_datetime = some s → strStartsWith s (dateKey y (m + 1) d) = false →
      e ∉ (getEventsForDate y m oe ot d).1) ∧
    (∀ (y m d : Int) (oe : Option (List CalendarEvent))
        (ot : Option (List Task)) (t : Task) (s : String),
      t.due_date = some s → strStartsWith s (dateKey y (m + 1) d) = false →
      t ∉ (getEventsForDate y m oe ot d).2) ∧
    (∀ (y m d : Int), getEventsForDate y m none none d = ([], [])) ∧
    (∀ (y m d : Int), getEventsForDate y m (some []) (some []) d = ([], [])) ∧
    (∀ (oe : Option (List CalendarEvent)) (ot : Option (List Task)),
      getEventsForSelectedDate none oe ot = ([], [])) ∧
    (∀ (oe : Option (List CalendarEvent)) (ot : Option (List Task)),
      selectedDayAgenda none oe ot = []) ∧
    (∀ sd : Date3, selectedDayAgenda (some sd) none none = []) ∧
    (∀ sd : Date3, selectedDayAgenda (some sd) (some []) (some []) = []) := by
  refine ⟨?_, ?_, ?_, ?_, fun y m d => rfl, fun y m d => rfl,
    fun oe ot => rfl, fun oe ot => rfl, fun sd => rfl, fun sd => rfl⟩
  · intro y m d oe ot e hnone hmem
    simp only [getEventsForDate, List.mem_filter] at hmem
    rw [hnone] at hmem
    simp [optStartsWith] at hmem
  · intro y m d oe ot t hnone hmem
    simp only [getEventsForDate, List.mem_filter] at hmem
    rw [hnone] at hmem
    simp [optStartsWith] at hmem
  · intro y m d oe ot e s hs hpref hmem
    simp only [getEventsForDate, List.mem_filter] at hmem
    rw [hs] at hmem
    simp [optStartsWith, hpref] at hmem
  · intro y m d oe ot t s hs hpref hmem
    simp only [getEventsForDate, List.mem_filter] at hmem
    rw [hs] at hmem
    simp [optStartsWith, hpref] at hmem

theorem C6_witness :
    noDateEvent ∉
      (getEventsForDate 2025 7 (some [noDateEvent]) (some [noDueTask]) 2).1 ∧
    noDueTask ∉
      (getEventsForDate 2025 7 (some [noDateEvent]) (some [noDueTask]) 2).2 ∧
    malformedEvent ∉
      (getEventsForDate 2025 7 (some [malformedEvent]) (some [malformedTask]) 2).1 ∧
    malformedTask ∉
      (getEventsForDate 2025 7 (some [malformedEvent]) (some [malformedTask]) 2).2 :=
  ⟨C6_missing_malformed_and_empty_inputs.1 2025 7 2 _ _ noDateEvent rfl,
   C6_missing_malformed_and_empty_inputs.2.1 2025 7 2 _ _ noDueTask rfl,
   C6_missing_malformed_and_empty_inputs.2.2.1 2025 7 2 _ _ malformedEvent
     "not-a-date" rfl (by decide),
   C6_missing_malformed_and_empty_inputs.2.2.2.1 2025 7 2 _ _ malformedTask
     "soon" rfl (by decide)⟩

/-! ## Agenda sorting facts -/

/-- The resolved sort key of an agenda item whose date parses: the parsed
milliseconds (0 only as the default of an impossible `none`). -/
def itemKey (it : AgendaItem) : Int :=
  (itemTime it).getD 0

theorem agendaLe_iff_of_isSome {a b : AgendaItem}
    (ha : (itemTime a).isSome = true) (hb : (itemTime b).isSome = true) :
    agendaLeP a b ↔ itemKey a ≤ itemKey b := by
  obtain ⟨x, hx⟩ := Option.isSome_iff_exists.mp ha
  obtain ⟨y, hy⟩ := Option.isSome_iff_exists.mp hb
  simp [agendaLeP, agendaLe, itemKey, hx, hy]

theorem orderedInsert_congr {α : Type*} {r s : α → α → Prop}
    [DecidableRel r] [DecidableRel s] (a : α) (l : List α)
    (h : ∀ x ∈ l, (r a x ↔ s a x)) :
    l.orderedInsert r a = l.orderedInsert s a := by
  induction l with
  | nil => rfl
  | cons b t ih =>
    simp only [List.orderedInsert]
    by_cases hr : r a b
    · rw [if_pos hr, if_pos ((h b (List.mem_cons_self b t)).mp hr)]
    · rw [if_neg hr, if_neg fun hs => hr ((h b (List.mem_cons_self b t)).mpr hs),
        ih fun x hx => h x (List.mem_cons_of_mem b hx)]

theorem insertionSort_congr {α : Type*} {r s : α → α → Prop}
    [DecidableRel r] [DecidableRel s] (l : List α)
    (h : ∀ a ∈ l, ∀ b ∈ l, (r a b ↔ s a b)) :
    List.insertionSort r l = List.insertionSort s l := by
  induction l with
  | nil => rfl
  | cons a t ih =>
    simp only [List.insertionSort]
    rw [ih fun x hx y hy => h x (List.mem_cons_of_mem a hx) y
      (List.mem_cons_of_mem a hy)]
    exact orderedInsert_congr a _ fun x hx =>
      h a (List.mem_cons_self a t) x
        (List.mem_cons_of_mem a ((List.mem_insertionSort s).mp hx))

/-- C4: the agenda for a selected day is the day's matching events and tasks
merged (events concatenated first) and stably sorted ascending by sort key —
an event's key is its parsed start timestamp, a task's key its parsed due
date with the time component defaulted to start of day.  Whenever every
item's date parses, the agenda is a permutation of the tagged concatenation,
pairwise ascending in the resolved keys (ties keep input order by stability).
Concretely: the task due `"2025-08-02"` gets the midnight key; for a day
with one event at 14:00 and that task, the task sorts first; at exactly
equal keys (event at 00:00), the event — concatenated first — stays first. -/
theorem C4_agenda_merge_sorted (sd : Date3) (oe : Option (List CalendarEvent))
    (ot : Option (List Task))
    (hall : ∀ it ∈ taggedItems (some sd) oe ot, (itemTime it).isSome = true) :
    (selectedDayAgenda (some sd) oe ot).Perm (taggedItems (some sd) oe ot) ∧
    (selectedDayAgenda (some sd) oe ot).Pairwise
      (fun a b => itemKey a ≤ itemKey b) ∧
    itemTime (.tk taskDue) = jsGetTime "2025-08-02T00:00:00" ∧
    selectedDayAgenda (some ⟨2025, 7, 2⟩) (some [event14]) (some [taskDue]) =
      [.tk taskDue, .ev event14] ∧
    selectedDayAgenda (some ⟨2025, 7, 2⟩) (some [event00]) (some [taskDue]) =
      [.ev event00, .tk taskDue] := by
  refine ⟨List.perm_insertionSort _ _, ?_, by decide, by decide, by decide⟩
  have hcongr : selectedDayAgenda (some sd) oe ot =
      List.insertionSort (fun a b => itemKey a ≤ itemKey b)
        (taggedItems (some sd) oe ot) := by
    unfold selectedDayAgenda
    exact insertionSort_congr _ fun a ha b hb =>
      agendaLe_iff_of_isSome (hall a ha) (hall b hb)
  rw [hcongr]
  haveI : IsTotal AgendaItem (fun a b => itemKey a ≤ itemKey b) :=
    ⟨fun a b => le_total _ _⟩
  haveI : IsTrans AgendaItem (fun a b => itemKey a ≤ itemKey b) :=
    ⟨fun a b c => le_trans⟩
  exact List.sorted_insertionSort _ _

theorem C4_witness :
    (selectedDayAgenda (some ⟨2025, 7, 2⟩) (some [event14]) (some [taskDue])).Perm
      (taggedItems (some ⟨2025, 7, 2⟩) (some [event14]) (some [taskDue])) :=
  (C4_agenda_merge_sorted ⟨2025, 7, 2⟩ (some [event14]) (some [taskDue])
    (by decide)).1

/-! ## Navigation facts -/

theorem navigateMonth_next (s : CalState) (h : s.currentDate.day = 1) :
    navigateMonth s .next =
      ⟨⟨s.currentDate.year + (s.currentDate.month + 1) / 12,
        (s.currentDate.month + 1) % 12, 1⟩, s.selectedDate⟩ := by
  simp only [navigateMonth, jsSetMonth, h, mkJsDate_day1]

theorem navigateMonth_prev (s : CalState) (h : s.currentDate.day = 1) :
    navigateMonth s .prev =
      ⟨⟨s.currentDate.year + (s.currentDate.month - 1) / 12,
        (s.currentDate.month - 1) % 12, 1⟩, s.selectedDate⟩ := by
  simp only [navigateMonth, jsSetMonth, h, mkJsDate_day1]

theorem navigateMonth_day1 (s : CalState) (dir : NavDir)
    (h : s.currentDate.day = 1) :
    (navigateMonth s dir).currentDate.day = 1 := by
  cases dir
  · rw [navigateMonth_prev s h]
  · rw [navigateMonth_next s h]

theorem handleDayPress_currentDate (s : CalState) (day : Int) (b : Bool) :
    (handleDayPress s day b).currentDate = s.currentDate := by
  unfold handleDayPress
  split <;> rfl

/-- C7: `navigateMonth` moves the displayed month by exactly one (as the
linear month index `year * 12 + month`) and leaves everything else — in
particular the day selection — unchanged; `handleDayPress` with
`isCurrentMonth = false` is a no-op, and with `isCurrentMonth = true` it
selects the pressed day in the currently displayed month and year.  The
hypotheses are the invariants of every reachable state: the displayed date
is a day-1 date with a normalised month, and the pressed day is a rendered
in-range day of the displayed month. -/
theorem C7_navigation_frame (s : CalState) (dir : NavDir) (d : Int)
    (hday : s.currentDate.day = 1)
    (hm0 : 0 ≤ s.currentDate.month) (hm1 : s.currentDate.month < 12)
    (hd1 : 1 ≤ d)
    (hd2 : d ≤ daysInMonth0 s.currentDate.year s.currentDate.month) :
    (navigateMonth s dir).selectedDate = s.selectedDate ∧
    (navigateMonth s dir).currentDate.day = 1 ∧
    monthIdx (navigateMonth s .next).currentDate = monthIdx s.currentDate + 1 ∧
    monthIdx (navigateMonth s .prev).currentDate = monthIdx s.currentDate - 1 ∧
    handleDayPress s d false = s ∧
    handleDayPress s d true =
      { s with
        selectedDate := some (Date3.mk s.currentDate.year s.currentDate.month d) } := by
  refine ⟨rfl, navigateMonth_day1 s dir hday, ?_, ?_, rfl, ?_⟩
  · rw [navigateMonth_next s hday]
    simp only [monthIdx]
    omega
  · rw [navigateMonth_prev s hday]
    simp only [monthIdx]
    omega
  · simp only [handleDayPress, if_true,
      mkJsDate_of_valid s.currentDate.year s.currentDate.month d hm0 hm1 hd1 hd2]

theorem C7_witness :
    (navigateMonth initialState .next).selectedDate = initialState.selectedDate ∧
    (navigateMonth initialState .next).currentDate.day = 1 ∧
    monthIdx (navigateMonth initialState .next).currentDate =
      monthIdx initialState.currentDate + 1 ∧
    monthIdx (navigateMonth initialState .prev).currentDate =
      monthIdx initialState.currentDate - 1 ∧
    handleDayPress initialState 5 false = initialState ∧
    handleDayPress initialState 5 true =
      { initialState with
        selectedDate := some (Date3.mk initialState.currentDate.year
          initialState.currentDate.month 5) } :=
  C7_navigation_frame initialState .next 5 rfl (by decide) (by decide)
    (by decide) (by decide)

/-- C10: in every state reachable from the initial state through
`navigateMonth` and `handleDayPress`, the displayed-month date is the first
day of its month, and consequently `navigateMonth` always moves the linear
month index by exactly ±1 — it never skips or repeats a month through
end-of-month rollover. -/
theorem C10_reachable_first_of_month (s : CalState) (h : Reachable s) :
    s.currentDate.day = 1 ∧
    monthIdx (navigateMonth s .next).currentDate = monthIdx s.currentDate + 1 ∧
    monthIdx (navigateMonth s .prev).currentDate = monthIdx s.currentDate - 1 := by
  have hday : s.currentDate.day = 1 := by
    induction h with
    | init => rfl
    | nav dir hs ih => exact navigateMonth_day1 _ dir ih
    | press day b hs ih => rw [handleDayPress_currentDate]; exact ih
  refine ⟨hday, ?_, ?_⟩
  · rw [navigateMonth_next s hday]
    simp only [monthIdx]
    omega
  · rw [navigateMonth_prev s hday]
    simp only [monthIdx]
    omega

theorem C10_witness :
    initialState.currentDate.day = 1 ∧
    monthIdx (navigateMonth initialState .next).currentDate =
      monthIdx initialState.currentDate + 1 ∧
    monthIdx (navigateMonth initialState .prev).currentDate =
      monthIdx initialState.currentDate - 1 :=
  C10_reachable_first_of_month initialState Reachable.init

/-- C8: from a displayed January of any year `y` (with any selection state),
twelve `navigateMonth('next')` steps land on January of year `y + 1`, and
the grid built for that month again has the 42-cell, six-rows-by-seven-days
shape. -/
theorem C8_twelve_nexts_reach_next_january (y : Int) (sel : Option Date3)
    (oe : Option (List CalendarEvent)) (ot : Option (List Task)) :
    (navigateMonth (navigateMonth (navigateMonth (navigateMonth (navigateMonth
      (navigateMonth (navigateMonth (navigateMonth (navigateMonth
      (navigateMonth (navigateMonth (navigateMonth ⟨⟨y, 0, 1⟩, sel⟩
      .next) .next) .next) .next) .next) .next) .next) .next) .next) .next)
      .next) .next).currentDate = ⟨y + 1, 0, 1⟩ ∧
    (renderCalendar (y + 1) 0 oe ot).length = 42 := by
  refine ⟨?_, renderCalendar_length (y + 1) 0 oe ot⟩
  norm_num [navigateMonth_next]

/-- C9: the month-view response yields an empty event collection in any
unexpected shape (and a non-array tasks response yields an empty task
collection), while a flat event list is extracted from each of the known
shapes — the flat array, the `events`-field object, and the nested `weeks`
structure (skipping null days and days without an event array); the
extraction functions are total, so no shape can raise. -/
theorem C9_defensive_response_extraction (es : List CalendarEvent)
    (e1 e2 : CalendarEvent) :
    extractEvents .unexpected = [] ∧
    extractTasks none = [] ∧
    extractEvents (.flat es) = es ∧
    extractEvents (.eventsField es) = es ∧
    (∀ ts : List Task, extractTasks (some ts) = ts) ∧
    extractEvents
      (.weeks [[some ⟨some [e1]⟩, none], [some ⟨none⟩, some ⟨some [e2]⟩]]) =
      [e1, e2] := by
  exact ⟨rfl, rfl, rfl, rfl, fun ts => rfl, by

    simp [extractEvents, dayHasEvents]⟩

end JobCal
